import Mathlib

/-!
Verification of the easy_bootloader firmware-update engine.

The definitions below are a shallow embedding of the C sources in
src/easy_bootloader_compoents/src/easy_bootloader.c, the structurally
identical stm32f4 example copy
(src/stm32f4_example/easy_bootloader_boot/project/Compoents/easy_bootloader.c,
which additionally has the Idle/Receiving/WaitFinish state machine and the
finish-frame path), and the application-side engine (src/unnamed/part_007,
easy_bootloader_app.c).  Machine integers are modelled as Nat; bytes are Nat
values below 256; flash/uart side effects are modelled as explicit event
logs.  Functions whose C originals can fail only through the porting layer
are modelled in two ways: the stream writer and the engine poll path assume
an always-succeeding port (their claims are about successful operation),
while the flag-region writers thread an explicit success oracle because
their claims talk about failure propagation.
-/

/-! ### Configuration constants (boot_config.h, CH32V307 build) -/

def BOOT_PACKET_MAX_SIZE : Nat := 1024

def BOOT_FRAME_FIXED_SIZE : Nat := 11

def BOOT_PAYLOAD_MAX_SIZE : Nat := BOOT_PACKET_MAX_SIZE - BOOT_FRAME_FIXED_SIZE

def BOOT_APP_START_ADDR : Nat := 0x6000

def BOOT_APP_MAX_SIZE : Nat := 0x39800

def BOOT_FLAG_REGION_ADDR : Nat := 0x3F800

def BOOT_FLAG_REGION_SIZE : Nat := 0x800

def BOOT_FLAG_ADDR : Nat := BOOT_FLAG_REGION_ADDR

def BOOT_VERSION_ADDR : Nat := BOOT_FLAG_REGION_ADDR + 0x4

def BOOT_DATE_ADDR : Nat := BOOT_FLAG_REGION_ADDR + 0x8

def BOOT_FLAG_BOOTLOADER : Nat := 1

def BOOT_FLAG_APP : Nat := 2

/-! ### Frame codec (bootloader_try_extract_frame)

The C function scans a linear cache: it slides one byte on a header
mismatch, gives up without consuming when fewer than the fixed 11 bytes
(or a full declared frame) are cached, slides two bytes on an oversized
declared length or a checksum/tail mismatch, and on success consumes the
whole frame.  The while-loop is embedded with an explicit fuel; every
iteration consumes at least one byte, so fuel `cache.length + 1` is
always enough and the fuel-zero branch is unreachable from the wrapper.

In the byte list `b0 :: b1 :: b2 :: b3 :: b4 :: b5 :: b6 :: rest`,
b0/b1 are the header, b2..b4 the big-endian `remaining` field, b5/b6 the
big-endian payload length; `rest` starts at the payload.  The C checksum
loop runs over indices 5 .. 6+len, i.e. the length field plus payload,
accumulating in a wrapping uint16. -/

def tryExtractFrameAux : Nat → List Nat → Option (Nat × List Nat) × List Nat
  | 0, cache => (none, cache)
  | fuel + 1, cache =>
    match cache with
    | b0 :: b1 :: b2 :: b3 :: b4 :: b5 :: b6 :: rest =>
      if rest.length < 4 then (none, b0 :: b1 :: b2 :: b3 :: b4 :: b5 :: b6 :: rest)
      else if ¬(b0 = 0x55 ∧ b1 = 0xAA) then
        tryExtractFrameAux fuel (b1 :: b2 :: b3 :: b4 :: b5 :: b6 :: rest)
      else
        let remain := b2 * 65536 + b3 * 256 + b4
        let packet_len := b5 * 256 + b6
        if packet_len > BOOT_PAYLOAD_MAX_SIZE then
          tryExtractFrameAux fuel (b2 :: b3 :: b4 :: b5 :: b6 :: rest)
        else if rest.length < 4 + packet_len then
          (none, b0 :: b1 :: b2 :: b3 :: b4 :: b5 :: b6 :: rest)
        else if 9 + packet_len + 1 ≥ 11 + packet_len then
          tryExtractFrameAux fuel (b2 :: b3 :: b4 :: b5 :: b6 :: rest)
        else
          let body := rest.take packet_len
          let post := rest.drop packet_len
          let received_crc := post.getD 0 0 * 256 + post.getD 1 0
          let calc_crc := (b5 + b6 + body.sum) % 65536
          if ¬(calc_crc = received_crc ∧ post.getD 2 0 = 0x55 ∧ post.getD 3 0 = 0x55) then
            tryExtractFrameAux fuel (b2 :: b3 :: b4 :: b5 :: b6 :: rest)
          else
            (some (remain, body), post.drop 4)
    | other => (none, other)

def bootloader_try_extract_frame (cache : List Nat) : Option (Nat × List Nat) × List Nat :=
  tryExtractFrameAux (cache.length + 1) cache

/-! ### Finish-frame codec (bootloader_try_extract_finish_frame, stm32f4 build)

Fixed 14-byte frame 55 AA ver[4] date[4] FF FD 55 55; same resync strategy:
slide 1 on header mismatch, slide 2 when the header matched but the command
or tail bytes do not. -/

def tryExtractFinishAux : Nat → List Nat → Option (Nat × Nat) × List Nat
  | 0, cache => (none, cache)
  | fuel + 1, cache =>
    match cache with
    | b0 :: b1 :: b2 :: b3 :: b4 :: b5 :: b6 :: b7 :: b8 :: b9 :: b10 :: b11 :: b12 :: b13 :: rest =>
      if ¬(b0 = 0x55 ∧ b1 = 0xAA) then
        tryExtractFinishAux fuel (b1 :: b2 :: b3 :: b4 :: b5 :: b6 :: b7 :: b8 :: b9 :: b10 :: b11 :: b12 :: b13 :: rest)
      else if b10 = 0xFF ∧ b11 = 0xFD ∧ b12 = 0x55 ∧ b13 = 0x55 then
        (some (b2 * 16777216 + b3 * 65536 + b4 * 256 + b5,
               b6 * 16777216 + b7 * 65536 + b8 * 256 + b9), rest)
      else
        tryExtractFinishAux fuel (b2 :: b3 :: b4 :: b5 :: b6 :: b7 :: b8 :: b9 :: b10 :: b11 :: b12 :: b13 :: rest)
    | other => (none, other)

def bootloader_try_extract_finish_frame (cache : List Nat) : Option (Nat × Nat) × List Nat :=
  tryExtractFinishAux (cache.length + 1) cache

/-! ### Flash stream writer (bootloader_stream_write / bootloader_stream_flush)

The C functions operate on the context fields current_addr and
stream_cache (a ≤4-byte carry buffer) and call boot_port_flash_write.
Here the two fields form a StreamCore and each call returns the list of
flash writes it issued, each one an (address, bytes) pair, in issue
order; the port is modelled as always succeeding. -/

structure StreamCore where
  current_addr : Nat
  stream_cache : List Nat
deriving Repr, DecidableEq

def bootloader_stream_write (sc : StreamCore) (data : List Nat) :
    StreamCore × List (Nat × List Nat) :=
  if data.length = 0 then (sc, [])
  else
    let k := if 0 < sc.stream_cache.length then min (4 - sc.stream_cache.length) data.length else 0
    let cache1 := sc.stream_cache ++ data.take k
    let wordDone := cache1.length = 4
    let addr1 := if wordDone then sc.current_addr + 4 else sc.current_addr
    let cacheA : List Nat := if wordDone then [] else cache1
    let ws1 : List (Nat × List Nat) := if wordDone then [(sc.current_addr, cache1)] else []
    let rest := data.drop k
    let alignedLen := rest.length - rest.length % 4
    let ws2 : List (Nat × List Nat) := if 0 < alignedLen then [(addr1, rest.take alignedLen)] else []
    let tl := rest.drop alignedLen
    (⟨addr1 + alignedLen, if 0 < tl.length then tl else cacheA⟩, ws1 ++ ws2)

def bootloader_stream_flush (sc : StreamCore) : StreamCore × List (Nat × List Nat) :=
  if sc.stream_cache.length = 0 then (sc, [])
  else
    let padded := sc.stream_cache ++ List.replicate (4 - sc.stream_cache.length) 0xFF
    (⟨sc.current_addr + 4, []⟩, [(sc.current_addr, padded)])

/-- Bytes of a write log, in issue order. -/
def wbytes : List (Nat × List Nat) → List Nat
  | [] => []
  | w :: ws => w.2 ++ wbytes ws

/-- Concatenation of a chunk sequence. -/
def joinChunks : List (List Nat) → List Nat
  | [] => []
  | d :: rest => d ++ joinChunks rest

/-- The write log is contiguous from an address: each entry starts where the
previous one ended and has a positive length that is a multiple of 4. -/
def Contig : Nat → List (Nat × List Nat) → Prop
  | _, [] => True
  | a, w :: ws => w.1 = a ∧ w.2.length % 4 = 0 ∧ 0 < w.2.length ∧ Contig (a + w.2.length) ws

/-- Decomposition of a contiguous byte run into 4-byte words with addresses. -/
def wordsOf : Nat → List Nat → List (Nat × List Nat)
  | _, [] => []
  | a, b :: rest => (a, (b :: rest).take 4) :: wordsOf (a + 4) (rest.drop 3)
termination_by _ bytes => bytes.length
decreasing_by simp only [List.length_cons, List.length_drop]; omega

/-- Streaming a whole chunk sequence: one bootloader_stream_write call per
chunk, accumulating the issued writes. -/
def streamRun (sc : StreamCore) : List (List Nat) → StreamCore × List (Nat × List Nat)
  | [] => (sc, [])
  | d :: rest =>
    let r1 := bootloader_stream_write sc d
    let r2 := streamRun r1.1 rest
    (r2.1, r1.2 ++ r2.2)

/-- A full transfer: fresh cursor (as set by bootloader_prepare_download),
all chunks streamed, then bootloader_stream_flush. -/
def streamSession (chunks : List (List Nat)) : StreamCore × List (Nat × List Nat) :=
  let r1 := streamRun ⟨BOOT_APP_START_ADDR, []⟩ chunks
  let r2 := bootloader_stream_flush r1.1
  (r2.1, r1.2 ++ r2.2)

/-! ### Flag region manager (bootloader_write_flag_region / app_write_flag_region)

Both sides erase the whole flag region and then program 4-byte words at
offsets +0, +4, +8, stopping at the first failing operation.  The port is
modelled by a success oracle indexed by the operation count within the
call; the returned Bool is the C status (true = BOOT_PORT_OK) and the list
records every flash operation actually issued, in order.  The C fills the
word buffer least-significant byte first. -/

inductive FlashOp
  | erase (addr size : Nat)
  | write (addr : Nat) (data : List Nat)
deriving Repr, DecidableEq

def word_bytes (v : Nat) : List Nat :=
  [v % 256, v / 256 % 256, v / 65536 % 256, v / 16777216 % 256]

def bootloader_write_flag_region (oracle : Nat → Bool) (flag version date : Nat) :
    Bool × List FlashOp :=
  let ops1 := [FlashOp.erase BOOT_FLAG_REGION_ADDR BOOT_FLAG_REGION_SIZE]
  if oracle 0 = false then (false, ops1) else
  let ops2 := ops1 ++ [FlashOp.write BOOT_FLAG_ADDR (word_bytes flag)]
  if oracle 1 = false then (false, ops2) else
  let ops3 := ops2 ++ [FlashOp.write BOOT_VERSION_ADDR (word_bytes version)]
  if oracle 2 = false then (false, ops3) else
  let ops4 := ops3 ++ [FlashOp.write BOOT_DATE_ADDR (word_bytes date)]
  (oracle 3, ops4)

/-- Application-side flag region write (app_write_flag_region in
easy_bootloader_app.c).  The region constants equal the bootloader-side
ones (boot_config_app.h).  Note the duplicated trailing date write that is
present in the C source: after the date word is programmed and its status
checked, the same word is programmed a second time and that status is
returned. -/
def app_write_flag_region (oracle : Nat → Bool) (flag version date : Nat) :
    Bool × List FlashOp :=
  let ops1 := [FlashOp.erase BOOT_FLAG_REGION_ADDR BOOT_FLAG_REGION_SIZE]
  if oracle 0 = false then (false, ops1) else
  let ops2 := ops1 ++ [FlashOp.write BOOT_FLAG_ADDR (word_bytes flag)]
  if oracle 1 = false then (false, ops2) else
  let ops3 := ops2 ++ [FlashOp.write BOOT_VERSION_ADDR (word_bytes version)]
  if oracle 2 = false then (false, ops3) else
  let ops4 := ops3 ++ [FlashOp.write BOOT_DATE_ADDR (word_bytes date)]
  if oracle 3 = false then (false, ops4) else
  let ops5 := ops4 ++ [FlashOp.write BOOT_DATE_ADDR (word_bytes date)]
  (oracle 4, ops5)

/-! ### Image validity checker (bootloader_check_app_valid)

Parameterized by the build architecture and the configuration constants;
word0/word1 are the first two little-endian words of the application
region. -/

inductive BootArch
  | arm_cortex_m
  | riscv
deriving Repr, DecidableEq

structure BootConfig where
  app_start : Nat
  app_end : Nat
  sram_start : Nat
  sram_end : Nat
  has_ccm : Bool
  ccm_start : Nat
  ccm_end : Nat
  flag_erased : Nat
deriving Repr, DecidableEq

def bootloader_check_app_valid (arch : BootArch) (cfg : BootConfig) (word0 word1 : Nat) : Bool :=
  match arch with
  | .arm_cortex_m =>
    let stack_valid :=
      (decide (cfg.sram_start ≤ word0 ∧ word0 ≤ cfg.sram_end)) ||
        (cfg.has_ccm && decide (cfg.ccm_start ≤ word0 ∧ word0 ≤ cfg.ccm_end))
    if stack_valid = false then false
    else if word1 < cfg.app_start ∨ cfg.app_end < word1 then false
    else if word1 % 2 = 0 then false
    else if word0 = cfg.flag_erased ∨ word1 = cfg.flag_erased then false
    else true
  | .riscv =>
    if word1 < cfg.app_start ∨ cfg.app_end < word1 then false
    else if word1 % 2 = 1 then false
    else if word0 = cfg.flag_erased ∨ word1 = cfg.flag_erased then false
    else true

/-- CH32V307 build configuration (boot_config.h): RISC-V, erased flash
pattern 0xE339E339. -/
def ch32v307_boot_config : BootConfig :=
  { app_start := BOOT_APP_START_ADDR
    app_end := BOOT_APP_START_ADDR + BOOT_APP_MAX_SIZE - 1
    sram_start := 0x20000000
    sram_end := 0x2000FFFF
    has_ccm := false
    ccm_start := 0
    ccm_end := 0
    flag_erased := 0xE339E339 }

/-- STM32F407 build configuration, embedded from the boot_config.h that is
carried as the second document of
src/stm32f4_example/easy_bootloader_app/project/Compoents/boot_port_app_stm32f407.c:
ARM Cortex-M, CCM RAM present, erased flash pattern 0xFFFFFFFF. -/
def stm32f407_boot_config : BootConfig :=
  { app_start := 0x08010000
    app_end := 0x08010000 + 0x000D0000 - 1
    sram_start := 0x20000000
    sram_end := 0x20030000
    has_ccm := true
    ccm_start := 0x10000000
    ccm_end := 0x10010000
    flag_erased := 0xFFFFFFFF }

/-- Decision taken by easy_bootloader_init after reading the flag region:
true exactly when boot_port_jump_to_app is invoked.  Mirrors the
if/else chain computing should_jump. -/
def easy_bootloader_should_jump (arch : BootArch) (cfg : BootConfig)
    (boot_flag word0 word1 : Nat) : Bool :=
  if boot_flag = BOOT_FLAG_BOOTLOADER then false
  else if bootloader_check_app_valid arch cfg word0 word1 then
    if boot_flag = BOOT_FLAG_APP then true
    else if boot_flag = cfg.flag_erased then false
    else false
  else false

/-! ### Application command engine (app_handle_start_flash)

Events are acknowledgement frames, flash operations and system resets, in
emission order.  app_handle_start_flash: a version equal to the cached one
is a no-op; otherwise the Ack is sent first, then the flag region is
written with flag=BOOTLOADER and the frame's version/date, and the system
is reset only if that write reported success. -/

inductive BootEvent
  | flash (op : FlashOp)
  | ack
  | reset
deriving Repr, DecidableEq

def app_handle_start_flash (oracle : Nat → Bool)
    (cached_version new_version new_date : Nat) : List BootEvent :=
  if new_version = cached_version then []
  else
    BootEvent.ack ::
      ((app_write_flag_region oracle BOOT_FLAG_BOOTLOADER new_version new_date).2.map BootEvent.flash
        ++ (if (app_write_flag_region oracle BOOT_FLAG_BOOTLOADER new_version new_date).1 then
              [BootEvent.reset] else []))

/-! ### Bootloader engine (stm32f4 build state machine)

The context mirrors bootloader_context_t; rx_cache is the linear parse
cache (capacity BOOT_PACKET_MAX_SIZE), current_addr/stream_cache the
stream-writer core.  Handlers return the C status (true = BOOT_PORT_OK),
the new context, and the emitted events. -/

inductive BootState
  | idle
  | receiving
  | waitFinish
deriving Repr, DecidableEq

structure BootCtx where
  rx_cache : List Nat
  current_addr : Nat
  stream_cache : List Nat
  boot_flag : Nat
  app_version : Nat
  update_date : Nat
  state : BootState
  download_active : Bool
  initialized : Bool
deriving Repr, DecidableEq

/-- bootloader_reset_context: zero the whole context, restore the cursor to
the application start and keep the initialized flag (stm32f4 build). -/
def bootloader_reset_context (ctx : BootCtx) : BootCtx :=
  { rx_cache := []
    current_addr := BOOT_APP_START_ADDR
    stream_cache := []
    boot_flag := 0
    app_version := 0
    update_date := 0
    state := BootState.idle
    download_active := false
    initialized := ctx.initialized }

/-- bootloader_poll_uart: drain the port's receive path into the linear
cache, up to the free space; incoming models the bytes the port would
deliver on this poll. -/
def bootloader_poll_uart (ctx : BootCtx) (incoming : List Nat) : BootCtx :=
  if BOOT_PACKET_MAX_SIZE - ctx.rx_cache.length = 0 then ctx
  else { ctx with rx_cache := ctx.rx_cache ++ incoming.take (BOOT_PACKET_MAX_SIZE - ctx.rx_cache.length) }

/-- bootloader_prepare_download: on the first frame of a session erase the
whole application region and reset the stream cursor and carry. -/
def bootloader_prepare_download (ctx : BootCtx) : BootCtx × List BootEvent :=
  if ctx.download_active then (ctx, [])
  else
    ({ ctx with current_addr := BOOT_APP_START_ADDR, stream_cache := [], download_active := true },
     [BootEvent.flash (FlashOp.erase BOOT_APP_START_ADDR BOOT_APP_MAX_SIZE)])

/-- bootloader_handle_payload (stm32f4 build): prepare the download, enter
Receiving, range-check the worst-case growth, stream the payload; on
remaining = 0 flush and enter WaitFinish; an Ack is sent whenever the
status is OK, last frame or not. -/
def bootloader_handle_payload (ctx : BootCtx) (remaining : Nat) (payload : List Nat) :
    Bool × BootCtx × List BootEvent :=
  let p := bootloader_prepare_download ctx
  let ctx2 := { p.1 with state := BootState.receiving }
  let future_bytes := ctx2.stream_cache.length + payload.length
  let worst_case := future_bytes + 3 - (future_bytes + 3) % 4
  if ctx2.current_addr + worst_case > BOOT_APP_START_ADDR + BOOT_APP_MAX_SIZE then
    (false, ctx2, p.2)
  else
    let w := bootloader_stream_write ⟨ctx2.current_addr, ctx2.stream_cache⟩ payload
    let ctx3 := { ctx2 with current_addr := w.1.current_addr, stream_cache := w.1.stream_cache }
    let ev3 := p.2 ++ w.2.map (fun x => BootEvent.flash (FlashOp.write x.1 x.2))
    if remaining = 0 then
      let f := bootloader_stream_flush ⟨ctx3.current_addr, ctx3.stream_cache⟩
      let ctx4 := { ctx3 with
                    current_addr := f.1.current_addr
                    stream_cache := f.1.stream_cache
                    download_active := false
                    state := BootState.waitFinish }
      (true, ctx4, (ev3 ++ f.2.map (fun x => BootEvent.flash (FlashOp.write x.1 x.2))) ++ [BootEvent.ack])
    else
      (true, ctx3, ev3 ++ [BootEvent.ack])

/-- bootloader_handle_finish_frame (stm32f4 build): reject when the state
machine is not in WaitFinish; otherwise write the flag region with
flag=APP and the frame's version/date, acknowledge and reset.  The flag
write is taken as succeeding (always-OK port). -/
def bootloader_handle_finish_frame (ctx : BootCtx) (version date : Nat) :
    Bool × BootCtx × List BootEvent :=
  if ¬(ctx.state = BootState.waitFinish) then (false, ctx, [])
  else
    (true, ctx,
      (bootloader_write_flag_region (fun _ => true) BOOT_FLAG_APP version date).2.map BootEvent.flash
        ++ [BootEvent.ack, BootEvent.reset])

/-- While-loop of easy_bootloader_run: keep extracting data frames and
handling them; a handler failure resets the whole context and stops.  Each
successful extraction consumes at least 11 cache bytes, so fuel
`cache.length + 1` always suffices. -/
def bootRunLoop : Nat → BootCtx → List BootEvent → BootCtx × List BootEvent
  | 0, ctx, evs => (ctx, evs)
  | fuel + 1, ctx, evs =>
    let e := bootloader_try_extract_frame ctx.rx_cache
    match e.1 with
    | none => ({ ctx with rx_cache := e.2 }, evs)
    | some (remaining, payload) =>
      let h := bootloader_handle_payload { ctx with rx_cache := e.2 } remaining payload
      if h.1 then bootRunLoop fuel h.2.1 (evs ++ h.2.2)
      else (bootloader_reset_context h.2.1, evs ++ h.2.2)

/-- easy_bootloader_run (stm32f4 build): poll the uart, then either look
for exactly one finish frame (WaitFinish state, resetting the context if
its handler fails) or run the data-frame loop. -/
def easy_bootloader_run (ctx : BootCtx) (incoming : List Nat) : BootCtx × List BootEvent :=
  if ctx.initialized = false then (ctx, [])
  else
    let ctx1 := bootloader_poll_uart ctx incoming
    if ctx1.state = BootState.waitFinish then
      let e := bootloader_try_extract_finish_frame ctx1.rx_cache
      match e.1 with
      | none => ({ ctx1 with rx_cache := e.2 }, [])
      | some (v, d) =>
        let h := bootloader_handle_finish_frame { ctx1 with rx_cache := e.2 } v d
        if h.1 then (h.2.1, h.2.2)
        else (bootloader_reset_context h.2.1, h.2.2)
    else
      bootRunLoop (ctx1.rx_cache.length + 1) ctx1 []

/-! ### Codec helper lemmas -/

/-- Fuel irrelevance: any fuel at least the cache length gives the same
result, since every loop iteration consumes at least one byte. -/
theorem tryExtractFrameAux_irrel :
    ∀ f1 f2 cache, cache.length ≤ f1 → cache.length ≤ f2 →
      tryExtractFrameAux f1 cache = tryExtractFrameAux f2 cache := by
  intro f1
  induction f1 with
  | zero =>
    intro f2 cache h1 h2
    have hc : cache = [] := List.eq_nil_of_length_eq_zero (Nat.le_zero.mp h1)
    subst hc
    cases f2 <;> simp [tryExtractFrameAux]
  | succ g1 ih =>
    intro f2 cache h1 h2
    cases f2 with
    | zero =>
      have hc : cache = [] := List.eq_nil_of_length_eq_zero (Nat.le_zero.mp h2)
      subst hc
      simp [tryExtractFrameAux]
    | succ g2 =>
      rcases cache with _ | ⟨b0, _ | ⟨b1, _ | ⟨b2, _ | ⟨b3, _ | ⟨b4, _ | ⟨b5, _ | ⟨b6, rest⟩⟩⟩⟩⟩⟩⟩
      · simp [tryExtractFrameAux]
      · simp [tryExtractFrameAux]
      · simp [tryExtractFrameAux]
      · simp [tryExtractFrameAux]
      · simp [tryExtractFrameAux]
      · simp [tryExtractFrameAux]
      · simp [tryExtractFrameAux]
      · have hL1 : rest.length + 7 ≤ g1 + 1 := by simpa using h1
        have hL2 : rest.length + 7 ≤ g2 + 1 := by simpa using h2
        simp only [tryExtractFrameAux]
        split_ifs with hA hB hC hD hE hF
        all_goals
          first
          | rfl
          | exact ih g2 _ (by simp only [List.length_cons]; omega)
              (by simp only [List.length_cons]; omega)

theorem tryExtract_eq_aux (fuel : Nat) (cache : List Nat) (h : cache.length ≤ fuel) :
    bootloader_try_extract_frame cache = tryExtractFrameAux fuel cache :=
  tryExtractFrameAux_irrel (cache.length + 1) fuel cache (by omega) h

/-- One unfolding step of the codec loop on a cache exposing the fixed
header fields. -/
theorem tryExtractFrameAux_cons (fuel : Nat) (b0 b1 b2 b3 b4 b5 b6 : Nat) (rest : List Nat) :
    tryExtractFrameAux (fuel + 1) (b0 :: b1 :: b2 :: b3 :: b4 :: b5 :: b6 :: rest) =
      (if rest.length < 4 then (none, b0 :: b1 :: b2 :: b3 :: b4 :: b5 :: b6 :: rest)
       else if ¬(b0 = 0x55 ∧ b1 = 0xAA) then
         tryExtractFrameAux fuel (b1 :: b2 :: b3 :: b4 :: b5 :: b6 :: rest)
       else if b5 * 256 + b6 > BOOT_PAYLOAD_MAX_SIZE then
         tryExtractFrameAux fuel (b2 :: b3 :: b4 :: b5 :: b6 :: rest)
       else if rest.length < 4 + (b5 * 256 + b6) then
         (none, b0 :: b1 :: b2 :: b3 :: b4 :: b5 :: b6 :: rest)
       else if 9 + (b5 * 256 + b6) + 1 ≥ 11 + (b5 * 256 + b6) then
         tryExtractFrameAux fuel (b2 :: b3 :: b4 :: b5 :: b6 :: rest)
       else if ¬((b5 + b6 + (rest.take (b5 * 256 + b6)).sum) % 65536
             = (rest.drop (b5 * 256 + b6)).getD 0 0 * 256 + (rest.drop (b5 * 256 + b6)).getD 1 0 ∧
           (rest.drop (b5 * 256 + b6)).getD 2 0 = 0x55 ∧
           (rest.drop (b5 * 256 + b6)).getD 3 0 = 0x55) then
         tryExtractFrameAux fuel (b2 :: b3 :: b4 :: b5 :: b6 :: rest)
       else
         (some (b2 * 65536 + b3 * 256 + b4, rest.take (b5 * 256 + b6)),
          (rest.drop (b5 * 256 + b6)).drop 4)) := rfl

/-- Fewer than the fixed frame size cached: report incomplete, consume
nothing. -/
theorem extract_too_short (cache : List Nat) (h : cache.length < 11) :
    bootloader_try_extract_frame cache = (none, cache) := by
  unfold bootloader_try_extract_frame
  rcases cache with _ | ⟨b0, _ | ⟨b1, _ | ⟨b2, _ | ⟨b3, _ | ⟨b4, _ | ⟨b5, _ | ⟨b6, rest⟩⟩⟩⟩⟩⟩⟩
  · simp [tryExtractFrameAux]
  · simp [tryExtractFrameAux]
  · simp [tryExtractFrameAux]
  · simp [tryExtractFrameAux]
  · simp [tryExtractFrameAux]
  · simp [tryExtractFrameAux]
  · simp [tryExtractFrameAux]
  · have hr : rest.length < 4 := by simp only [List.length_cons] at h; omega
    rw [show (b0 :: b1 :: b2 :: b3 :: b4 :: b5 :: b6 :: rest).length + 1
        = (rest.length + 7) + 1 by simp only [List.length_cons]]
    rw [tryExtractFrameAux_cons, if_pos hr]

/-- Header mismatch: slide exactly one byte. -/
theorem extract_skip_header (b0 b1 b2 b3 b4 b5 b6 : Nat) (rest : List Nat)
    (hA : ¬ rest.length < 4) (hB : ¬(b0 = 0x55 ∧ b1 = 0xAA)) :
    bootloader_try_extract_frame (b0 :: b1 :: b2 :: b3 :: b4 :: b5 :: b6 :: rest)
      = bootloader_try_extract_frame (b1 :: b2 :: b3 :: b4 :: b5 :: b6 :: rest) := by
  calc bootloader_try_extract_frame (b0 :: b1 :: b2 :: b3 :: b4 :: b5 :: b6 :: rest)
      = tryExtractFrameAux ((rest.length + 7) + 1)
          (b0 :: b1 :: b2 :: b3 :: b4 :: b5 :: b6 :: rest) := rfl
    _ = tryExtractFrameAux (rest.length + 7) (b1 :: b2 :: b3 :: b4 :: b5 :: b6 :: rest) := by
        rw [tryExtractFrameAux_cons, if_neg hA, if_pos hB]
    _ = bootloader_try_extract_frame (b1 :: b2 :: b3 :: b4 :: b5 :: b6 :: rest) :=
        (tryExtract_eq_aux _ _ (by simp only [List.length_cons]; omega)).symm

/-- Header matched but the candidate frame is invalid (oversized declared
length, or fully cached with a checksum or tail mismatch): slide exactly
two bytes. -/
theorem extract_skip_two (b2 b3 b4 b5 b6 : Nat) (rest : List Nat)
    (hA : ¬ rest.length < 4)
    (hbad : b5 * 256 + b6 > BOOT_PAYLOAD_MAX_SIZE ∨
      (¬ rest.length < 4 + (b5 * 256 + b6) ∧
        ¬(((b5 + b6 + (rest.take (b5 * 256 + b6)).sum) % 65536
            = (rest.drop (b5 * 256 + b6)).getD 0 0 * 256 + (rest.drop (b5 * 256 + b6)).getD 1 0) ∧
          (rest.drop (b5 * 256 + b6)).getD 2 0 = 0x55 ∧
          (rest.drop (b5 * 256 + b6)).getD 3 0 = 0x55))) :
    bootloader_try_extract_frame (0x55 :: 0xAA :: b2 :: b3 :: b4 :: b5 :: b6 :: rest)
      = bootloader_try_extract_frame (b2 :: b3 :: b4 :: b5 :: b6 :: rest) := by
  calc bootloader_try_extract_frame (0x55 :: 0xAA :: b2 :: b3 :: b4 :: b5 :: b6 :: rest)
      = tryExtractFrameAux ((rest.length + 7) + 1)
          (0x55 :: 0xAA :: b2 :: b3 :: b4 :: b5 :: b6 :: rest) := rfl
    _ = tryExtractFrameAux (rest.length + 7) (b2 :: b3 :: b4 :: b5 :: b6 :: rest) := by
        rw [tryExtractFrameAux_cons, if_neg hA,
          if_neg (by decide : ¬¬((0x55 : Nat) = 0x55 ∧ (0xAA : Nat) = 0xAA))]
        rcases hbad with hover | ⟨hfull, hmis⟩
        · rw [if_pos hover]
        · by_cases hover2 : b5 * 256 + b6 > BOOT_PAYLOAD_MAX_SIZE
          · rw [if_pos hover2]
          · rw [if_neg hover2, if_neg hfull, if_neg (by omega), if_pos hmis]
    _ = bootloader_try_extract_frame (b2 :: b3 :: b4 :: b5 :: b6 :: rest) :=
        (tryExtract_eq_aux _ _ (by simp only [List.length_cons]; omega)).symm

/-- Header matched, declared length admissible, frame not fully cached:
report incomplete, consume nothing. -/
theorem extract_incomplete (b2 b3 b4 b5 b6 : Nat) (rest : List Nat)
    (hA : ¬ rest.length < 4)
    (hmax : ¬ b5 * 256 + b6 > BOOT_PAYLOAD_MAX_SIZE)
    (hshort : rest.length < 4 + (b5 * 256 + b6)) :
    bootloader_try_extract_frame (0x55 :: 0xAA :: b2 :: b3 :: b4 :: b5 :: b6 :: rest)
      = (none, 0x55 :: 0xAA :: b2 :: b3 :: b4 :: b5 :: b6 :: rest) := by
  calc bootloader_try_extract_frame (0x55 :: 0xAA :: b2 :: b3 :: b4 :: b5 :: b6 :: rest)
      = tryExtractFrameAux ((rest.length + 7) + 1)
          (0x55 :: 0xAA :: b2 :: b3 :: b4 :: b5 :: b6 :: rest) := rfl
    _ = (none, 0x55 :: 0xAA :: b2 :: b3 :: b4 :: b5 :: b6 :: rest) := by
        rw [tryExtractFrameAux_cons, if_neg hA,
          if_neg (by decide : ¬¬((0x55 : Nat) = 0x55 ∧ (0xAA : Nat) = 0xAA)),
          if_neg hmax, if_pos hshort]

/-- Header matched, admissible declared length, full frame cached, checksum
and tail correct: the frame is accepted, its payload extracted and exactly
the whole frame consumed. -/
theorem extract_accept (b2 b3 b4 b5 b6 : Nat) (rest : List Nat)
    (hA : ¬ rest.length < 4)
    (hmax : ¬ b5 * 256 + b6 > BOOT_PAYLOAD_MAX_SIZE)
    (hfull : ¬ rest.length < 4 + (b5 * 256 + b6))
    (hok : ((b5 + b6 + (rest.take (b5 * 256 + b6)).sum) % 65536
        = (rest.drop (b5 * 256 + b6)).getD 0 0 * 256 + (rest.drop (b5 * 256 + b6)).getD 1 0) ∧
      (rest.drop (b5 * 256 + b6)).getD 2 0 = 0x55 ∧
      (rest.drop (b5 * 256 + b6)).getD 3 0 = 0x55) :
    bootloader_try_extract_frame (0x55 :: 0xAA :: b2 :: b3 :: b4 :: b5 :: b6 :: rest)
      = (some (b2 * 65536 + b3 * 256 + b4, rest.take (b5 * 256 + b6)),
         (rest.drop (b5 * 256 + b6)).drop 4) := by
  calc bootloader_try_extract_frame (0x55 :: 0xAA :: b2 :: b3 :: b4 :: b5 :: b6 :: rest)
      = tryExtractFrameAux ((rest.length + 7) + 1)
          (0x55 :: 0xAA :: b2 :: b3 :: b4 :: b5 :: b6 :: rest) := rfl
    _ = (some (b2 * 65536 + b3 * 256 + b4, rest.take (b5 * 256 + b6)),
         (rest.drop (b5 * 256 + b6)).drop 4) := by
        rw [tryExtractFrameAux_cons, if_neg hA,
          if_neg (by decide : ¬¬((0x55 : Nat) = 0x55 ∧ (0xAA : Nat) = 0xAA)),
          if_neg hmax, if_neg hfull, if_neg (by omega), if_neg (not_not_intro hok)]

/-- Whenever the codec returns a frame, the consumed bytes account for the
fixed 11-byte overhead plus the payload: what remains is shorter by at
least that much. -/
theorem tryExtractFrameAux_consume :
    ∀ fuel cache r p c2, tryExtractFrameAux fuel cache = (some (r, p), c2) →
      11 + p.length + c2.length ≤ cache.length := by
  intro fuel
  induction fuel with
  | zero => intro cache r p c2 h; simp [tryExtractFrameAux] at h
  | succ g ih =>
    intro cache r p c2 h
    rcases cache with _ | ⟨b0, _ | ⟨b1, _ | ⟨b2, _ | ⟨b3, _ | ⟨b4, _ | ⟨b5, _ | ⟨b6, rest⟩⟩⟩⟩⟩⟩⟩
    · simp [tryExtractFrameAux] at h
    · simp [tryExtractFrameAux] at h
    · simp [tryExtractFrameAux] at h
    · simp [tryExtractFrameAux] at h
    · simp [tryExtractFrameAux] at h
    · simp [tryExtractFrameAux] at h
    · simp [tryExtractFrameAux] at h
    · rw [tryExtractFrameAux_cons] at h
      split_ifs at h with h1 h2 h3 h4 h5 h6
      all_goals
        first
        | (simp only [Prod.mk.injEq, Option.some.injEq] at h
           obtain ⟨⟨hr, hp⟩, hc2⟩ := h
           subst hp
           subst hc2
           simp only [List.length_cons, List.length_take, List.length_drop]
           omega)
        | (have hc := ih _ _ _ _ h
           simp only [List.length_cons] at hc ⊢
           omega)
        | simp at h

theorem bootloader_try_extract_frame_consume (cache : List Nat) (r : Nat) (p c2 : List Nat)
    (h : bootloader_try_extract_frame cache = (some (r, p), c2)) :
    11 + p.length + c2.length ≤ cache.length :=
  tryExtractFrameAux_consume (cache.length + 1) cache r p c2 h

/-- C6: whenever the first two cached bytes match the header 0x55 0xAA but
the candidate frame is invalid — the declared payload length exceeds
BOOT_PAYLOAD_MAX_SIZE, or the frame is fully cached and its computed
checksum differs from the checksum field or the tail constant does not
match — the codec discards exactly 2 leading bytes and continues scanning
from there: the result on the cache equals the result on the cache with
its first two bytes removed (never one byte, never the whole candidate
frame). -/
theorem C6_resync_discards_exactly_two (b2 b3 b4 b5 b6 : Nat) (rest : List Nat)
    (hA : 4 ≤ rest.length)
    (hbad : b5 * 256 + b6 > BOOT_PAYLOAD_MAX_SIZE ∨
      (4 + (b5 * 256 + b6) ≤ rest.length ∧
        ¬(((b5 + b6 + (rest.take (b5 * 256 + b6)).sum) % 65536
            = (rest.drop (b5 * 256 + b6)).getD 0 0 * 256 + (rest.drop (b5 * 256 + b6)).getD 1 0) ∧
          (rest.drop (b5 * 256 + b6)).getD 2 0 = 0x55 ∧
          (rest.drop (b5 * 256 + b6)).getD 3 0 = 0x55))) :
    bootloader_try_extract_frame (0x55 :: 0xAA :: b2 :: b3 :: b4 :: b5 :: b6 :: rest)
      = bootloader_try_extract_frame
          ((0x55 :: 0xAA :: b2 :: b3 :: b4 :: b5 :: b6 :: rest).drop 2) := by
  have h1 : ((0x55 : Nat) :: 0xAA :: b2 :: b3 :: b4 :: b5 :: b6 :: rest).drop 2
      = b2 :: b3 :: b4 :: b5 :: b6 :: rest := rfl
  rw [h1]
  exact extract_skip_two b2 b3 b4 b5 b6 rest (by omega)
    (by rcases hbad with h | ⟨hf, hm⟩
        · exact Or.inl h
        · exact Or.inr ⟨by omega, hm⟩)

/-- Witness for C6 at a concrete corrupted frame: an empty-payload frame
whose checksum field holds 9*256+9 instead of 0. -/
theorem C6_resync_witness :
    bootloader_try_extract_frame
        (0x55 :: 0xAA :: 0 :: 0 :: 1 :: 0 :: 0 :: [9, 9, 0x55, 0x55, 7])
      = bootloader_try_extract_frame
          ((0x55 :: 0xAA :: 0 :: 0 :: 1 :: 0 :: 0 :: [9, 9, 0x55, 0x55, 7]).drop 2) :=
  C6_resync_discards_exactly_two 0 0 1 0 0 [9, 9, 0x55, 0x55, 7] (by decide)
    (Or.inr (by decide))

/-- C3 counterexample: the claim states that a DataFrame is accepted exactly
when its checksum field equals the 16-bit sum of every byte from the
3-byte remaining field through the payload.  For the frame
55 AA 00 00 01 00 00 | 00 00 | 55 55 (remaining = 1, empty payload) that
sum is over the bytes [0,0,1,0,0] and equals 1, while the checksum field
is 0 — so per the claim the frame must be rejected — yet the codec
accepts it, because the C checksum loop starts at byte index 5 (the
length field), skipping the remaining field. -/
theorem C3_checksum_range_counterexample :
    bootloader_try_extract_frame [0x55, 0xAA, 0, 0, 1, 0, 0, 0, 0, 0x55, 0x55]
        = (some (1, []), [])
      ∧ ([0, 0, 1, 0, 0] : List Nat).sum % 65536 = 1
      ∧ (0 : Nat) ≠ 1 := by decide

/-- C3 (amended): a full well-formed candidate DataFrame is accepted — with
its remaining value and payload extracted and the whole frame consumed —
exactly when its trailing 16-bit checksum field equals the 16-bit wrapping
sum of every byte from the start of the 2-byte length field through the
end of the payload (header, remaining, checksum and tail bytes excluded);
with a matching field the frame is never rejected for a checksum mismatch,
and with a differing field it is never accepted. -/
theorem C3_frame_acceptance_iff_checksum (r0 r1 r2 l0 l1 c0 c1 : Nat) (payload : List Nat)
    (hl : l0 * 256 + l1 = payload.length) (hmax : payload.length ≤ BOOT_PAYLOAD_MAX_SIZE) :
    bootloader_try_extract_frame
        (0x55 :: 0xAA :: r0 :: r1 :: r2 :: l0 :: l1 :: (payload ++ [c0, c1, 0x55, 0x55]))
        = (some (r0 * 65536 + r1 * 256 + r2, payload), [])
      ↔ c0 * 256 + c1 = (l0 + l1 + payload.sum) % 65536 := by
  have hpm : BOOT_PAYLOAD_MAX_SIZE = 1013 := rfl
  have hlen : (payload ++ [c0, c1, 0x55, 0x55]).length = payload.length + 4 := by simp
  have htake : (payload ++ [c0, c1, 0x55, 0x55]).take (l0 * 256 + l1) = payload := by
    rw [hl]
    exact List.take_left _ _
  have hdrop : (payload ++ [c0, c1, 0x55, 0x55]).drop (l0 * 256 + l1) = [c0, c1, 0x55, 0x55] := by
    rw [hl]
    exact List.drop_left _ _
  by_cases hcs : c0 * 256 + c1 = (l0 + l1 + payload.sum) % 65536
  · have hacc := extract_accept r0 r1 r2 l0 l1 (payload ++ [c0, c1, 0x55, 0x55])
      (by omega) (by omega)
      (by rw [hlen]; omega)
      (by rw [htake, hdrop]
          refine ⟨?_, by simp [List.getD], by simp [List.getD]⟩
          simp only [List.getD]
          simp
          omega)
    rw [htake, hdrop] at hacc
    simp only [List.drop] at hacc
    exact iff_of_true hacc hcs
  · have hskip := extract_skip_two r0 r1 r2 l0 l1 (payload ++ [c0, c1, 0x55, 0x55])
      (by omega)
      (Or.inr ⟨by rw [hlen]; omega,
        by rw [htake, hdrop]
           intro hcon
           apply hcs
           have h0 : ([c0, c1, 0x55, 0x55] : List Nat).getD 0 0 = c0 := rfl
           have h1 : ([c0, c1, 0x55, 0x55] : List Nat).getD 1 0 = c1 := rfl
           rw [h0, h1] at hcon
           omega⟩)
    constructor
    · intro hacc
      rw [hskip] at hacc
      have := bootloader_try_extract_frame_consume _ _ _ _ hacc
      simp only [List.length_cons, List.length_append, List.length_nil] at this
      omega
    · intro h
      exact absurd h hcs

/-- Witness for C3 at remaining = 1, empty payload, checksum field 0. -/
theorem C3_frame_acceptance_witness :
    bootloader_try_extract_frame [0x55, 0xAA, 0, 0, 1, 0, 0, 0, 0, 0x55, 0x55]
      = (some (1, []), []) := by
  have h := (C3_frame_acceptance_iff_checksum 0 0 1 0 0 0 0 [] (by decide) (by decide)).mpr
    (by decide)
  simpa using h

/-- Acceptance of a full well-formed frame whose checksum field matches the
sum over the length field and payload. -/
theorem extract_wellformed (r0 r1 r2 l0 l1 c0 c1 : Nat) (payload : List Nat)
    (hl : l0 * 256 + l1 = payload.length) (hmax : payload.length ≤ BOOT_PAYLOAD_MAX_SIZE)
    (hcs : c0 * 256 + c1 = (l0 + l1 + payload.sum) % 65536) :
    bootloader_try_extract_frame
        (0x55 :: 0xAA :: r0 :: r1 :: r2 :: l0 :: l1 :: (payload ++ [c0, c1, 0x55, 0x55]))
      = (some (r0 * 65536 + r1 * 256 + r2, payload), []) := by
  have hpm : BOOT_PAYLOAD_MAX_SIZE = 1013 := rfl
  have hlen : (payload ++ [c0, c1, 0x55, 0x55]).length = payload.length + 4 := by simp
  have htake : (payload ++ [c0, c1, 0x55, 0x55]).take (l0 * 256 + l1) = payload := by
    rw [hl]
    exact List.take_left _ _
  have hdrop : (payload ++ [c0, c1, 0x55, 0x55]).drop (l0 * 256 + l1) = [c0, c1, 0x55, 0x55] := by
    rw [hl]
    exact List.drop_left _ _
  have hacc := extract_accept r0 r1 r2 l0 l1 (payload ++ [c0, c1, 0x55, 0x55])
    (by omega) (by omega)
    (by rw [hlen]; omega)
    (by rw [htake, hdrop]
        refine ⟨?_, by simp [List.getD], by simp [List.getD]⟩
        simp only [List.getD]
        simp
        omega)
  rw [htake, hdrop] at hacc
  simpa using hacc

/-- Encoding of a DataFrame as the host sends it, with the checksum the
codec verifies: big-endian remaining and length fields, then the payload,
the 16-bit wrapping sum of the length-field bytes and payload bytes, and
the tail constant. -/
def encodeDataFrame (remaining : Nat) (payload : List Nat) : List Nat :=
  0x55 :: 0xAA :: (remaining / 65536 % 256) :: (remaining / 256 % 256) :: (remaining % 256) ::
    (payload.length / 256) :: (payload.length % 256) ::
    (payload ++
      [((payload.length / 256 + payload.length % 256 + payload.sum) % 65536) / 256,
       ((payload.length / 256 + payload.length % 256 + payload.sum) % 65536) % 256,
       0x55, 0x55])

/-- C7: for every payload length up to BOOT_PAYLOAD_MAX_SIZE, a correctly
encoded DataFrame yields, on every strict prefix of the frame (hence after
every poll while it is fed one byte at a time), no frame and an unchanged
cache, and on the full frame (fed in one chunk, or as the last byte
arrives) exactly one extracted frame carrying the original remaining value
and payload, with the whole frame consumed — so byte-by-byte and
single-chunk feeding give identical results. -/
theorem C7_codec_incremental_feed (remaining : Nat) (payload : List Nat)
    (hmax : payload.length ≤ BOOT_PAYLOAD_MAX_SIZE) (hrem : remaining < 16777216) :
    (∀ k, k < (encodeDataFrame remaining payload).length →
       bootloader_try_extract_frame ((encodeDataFrame remaining payload).take k)
         = (none, (encodeDataFrame remaining payload).take k)) ∧
    bootloader_try_extract_frame (encodeDataFrame remaining payload)
      = (some (remaining, payload), []) := by
  have hpm : BOOT_PAYLOAD_MAX_SIZE = 1013 := rfl
  have hl : (payload.length / 256) * 256 + payload.length % 256 = payload.length := by omega
  have hFlen : (encodeDataFrame remaining payload).length = payload.length + 11 := by
    unfold encodeDataFrame
    simp
  constructor
  · intro k hk
    by_cases hk11 : k < 11
    · apply extract_too_short
      rw [List.length_take]
      omega
    · obtain ⟨k7, rfl⟩ : ∃ k7, k = k7 + 7 := ⟨k - 7, by omega⟩
      rw [hFlen] at hk
      unfold encodeDataFrame
      rw [show k7 + 7 = ((((((k7 + 1) + 1) + 1) + 1) + 1) + 1) + 1 by omega]
      simp only [List.take_succ_cons]
      exact extract_incomplete _ _ _ _ _ _
        (by rw [List.length_take]; simp only [List.length_append]; simp; omega)
        (by rw [hl, hpm]; omega)
        (by rw [List.length_take, hl]; simp only [List.length_append]; simp; omega)
  · have hacc := extract_wellformed (remaining / 65536 % 256) (remaining / 256 % 256)
      (remaining % 256) (payload.length / 256) (payload.length % 256)
      (((payload.length / 256 + payload.length % 256 + payload.sum) % 65536) / 256)
      (((payload.length / 256 + payload.length % 256 + payload.sum) % 65536) % 256)
      payload hl hmax (by omega)
    unfold encodeDataFrame
    rw [hacc]
    have : (remaining / 65536 % 256) * 65536 + (remaining / 256 % 256) * 256 + remaining % 256
        = remaining := by omega
    rw [this]

/-- Witness for C7 at remaining = 7 and payload [1, 2, 3]. -/
theorem C7_codec_incremental_witness :
    (∀ k, k < (encodeDataFrame 7 [1, 2, 3]).length →
       bootloader_try_extract_frame ((encodeDataFrame 7 [1, 2, 3]).take k)
         = (none, (encodeDataFrame 7 [1, 2, 3]).take k)) ∧
    bootloader_try_extract_frame (encodeDataFrame 7 [1, 2, 3])
      = (some (7, [1, 2, 3]), []) :=
  C7_codec_incremental_feed 7 [1, 2, 3] (by decide) (by decide)

/-! ### Stream writer lemmas -/

theorem wbytes_append (ws1 ws2 : List (Nat × List Nat)) :
    wbytes (ws1 ++ ws2) = wbytes ws1 ++ wbytes ws2 := by
  induction ws1 with
  | nil => simp [wbytes]
  | cons w ws ih => simp [wbytes, ih]

theorem contig_append (ws1 : List (Nat × List Nat)) :
    ∀ a ws2, Contig a ws1 → Contig (a + (wbytes ws1).length) ws2 → Contig a (ws1 ++ ws2) := by
  induction ws1 with
  | nil => intro a ws2 _ h2; simpa [wbytes] using h2
  | cons w ws ih =>
    intro a ws2 h1 h2
    obtain ⟨ha, hm, hp, hrest⟩ := h1
    refine ⟨ha, hm, hp, ih (a + w.2.length) ws2 hrest ?_⟩
    have : a + w.2.length + (wbytes ws).length = a + (wbytes (w :: ws)).length := by
      simp [wbytes]
      omega
    rw [this]
    exact h2

theorem contig_wbytes_mod (ws : List (Nat × List Nat)) :
    ∀ a, Contig a ws → (wbytes ws).length % 4 = 0 := by
  induction ws with
  | nil => intro a _; simp [wbytes]
  | cons w rest ih =>
    intro a h
    obtain ⟨_, hm, _, hrest⟩ := h
    have := ih _ hrest
    simp only [wbytes, List.length_append]
    omega

theorem contig_writes_aligned (ws : List (Nat × List Nat)) :
    ∀ a, Contig a ws → a % 4 = 0 →
      ∀ w ∈ ws, w.1 % 4 = 0 ∧ w.2.length % 4 = 0 ∧ 0 < w.2.length := by
  induction ws with
  | nil => intro a _ _ w hw; simp at hw
  | cons v rest ih =>
    intro a h ha w hw
    obtain ⟨hv, hm, hp, hrest⟩ := h
    rcases List.mem_cons.mp hw with rfl | hw'
    · exact ⟨by omega, hm, hp⟩
    · exact ih (a + v.2.length) hrest (by omega) w hw'

/-- Behaviour of a single bootloader_stream_write call on a carry buffer of
at most 3 bytes: the issued writes followed by the new carry hold exactly
the old carry followed by the chunk; the new carry length is the total
modulo 4; the writes are contiguous from the old cursor; and the cursor
advances by exactly the number of bytes written. -/
theorem bootloader_stream_write_spec (sc : StreamCore) (data : List Nat)
    (h3 : sc.stream_cache.length ≤ 3) :
    wbytes (bootloader_stream_write sc data).2 ++ (bootloader_stream_write sc data).1.stream_cache
        = sc.stream_cache ++ data ∧
    (bootloader_stream_write sc data).1.stream_cache.length
        = (sc.stream_cache.length + data.length) % 4 ∧
    Contig sc.current_addr (bootloader_stream_write sc data).2 ∧
    (bootloader_stream_write sc data).1.current_addr
        = sc.current_addr + (wbytes (bootloader_stream_write sc data).2).length := by
  obtain ⟨a, c⟩ := sc
  simp only at h3 ⊢
  by_cases hd : data.length = 0
  · have hdata : data = [] := List.eq_nil_of_length_eq_zero hd
    subst hdata
    simp [bootloader_stream_write, wbytes, Contig]
    omega
  · rcases c with _ | ⟨x, cr⟩
    · simp only [bootloader_stream_write, if_neg hd]
      simp only [List.length_nil, Nat.lt_irrefl, if_false, List.take_zero, List.append_nil,
        List.nil_append, List.drop_zero]
      split_ifs
      all_goals refine ⟨?_, ?_, ?_, ?_⟩
      all_goals try (simp only [wbytes, List.append_assoc, List.take_append_drop,
        List.append_nil, List.nil_append]; done)
      all_goals simp only [Contig, wbytes, List.length_append, List.length_take,
        List.length_drop, List.length_nil, List.length_cons, List.append_nil,
        List.nil_append, and_true, true_and] at *
      all_goals try first | omega | (exfalso; omega)
      · rw [List.take_of_length_le (by omega)]
      · rw [show data.length - data.length % 4 = 0 from by omega, List.drop_zero]
    · simp only [bootloader_stream_write, if_neg hd]
      simp only [List.length_cons, Nat.succ_pos, Nat.zero_lt_succ, if_true, if_pos]
      split_ifs
      all_goals refine ⟨?_, ?_, ?_, ?_⟩
      all_goals try (simp only [wbytes, List.append_assoc, List.take_append_drop,
        List.append_nil, List.nil_append]; done)
      all_goals simp only [Contig, wbytes, List.length_append, List.length_take,
        List.length_drop, List.length_nil, List.length_cons, List.append_nil,
        List.nil_append, and_true, true_and] at *
      all_goals try first | omega | (exfalso; omega)
      · rw [@List.take_of_length_le Nat _ (List.drop _ data)
            (by simp only [List.length_drop]; omega)]
        simp only [List.append_assoc, List.take_append_drop]
      · rw [show data.length - min (4 - (cr.length + 1)) data.length
              - (data.length - min (4 - (cr.length + 1)) data.length) % 4 = 0 from by omega,
          List.drop_zero]
        simp only [List.append_assoc, List.take_append_drop]
      · rw [List.take_of_length_le (by omega)]
      · rw [List.take_of_length_le (by omega)]

/-- Behaviour of bootloader_stream_flush: the issued write holds the carry
padded to a word with 0xFF, the carry empties, and the cursor advances by
the write length. -/
theorem bootloader_stream_flush_spec (sc : StreamCore) (h3 : sc.stream_cache.length ≤ 3) :
    wbytes (bootloader_stream_flush sc).2
        = sc.stream_cache ++ List.replicate ((4 - sc.stream_cache.length) % 4) 0xFF ∧
    (bootloader_stream_flush sc).1.stream_cache = [] ∧
    Contig sc.current_addr (bootloader_stream_flush sc).2 ∧
    (bootloader_stream_flush sc).1.current_addr
        = sc.current_addr + (wbytes (bootloader_stream_flush sc).2).length := by
  by_cases hz : sc.stream_cache.length = 0
  · have hnil : sc.stream_cache = [] := List.eq_nil_of_length_eq_zero hz
    simp [bootloader_stream_flush, hz, hnil, wbytes, Contig]
  · simp only [bootloader_stream_flush, if_neg hz]
    refine ⟨?_, ?_, ?_, ?_⟩
    · simp only [wbytes, List.append_nil]
      congr 2
      omega
    · trivial
    · simp only [Contig, List.length_append, List.length_replicate]
      refine ⟨?_, ?_, ?_, ?_⟩ <;> first | trivial | omega
    · simp only [wbytes, List.append_nil, List.length_append, List.length_replicate]
      omega

/-- Streaming a chunk sequence accumulates exactly the chunk bytes behind
the carry, keeps the carry length equal to the fed total modulo 4, and
issues contiguous writes from the starting cursor. -/
theorem streamRun_spec (chunks : List (List Nat)) :
    ∀ sc : StreamCore, sc.stream_cache.length ≤ 3 →
      wbytes (streamRun sc chunks).2 ++ (streamRun sc chunks).1.stream_cache
          = sc.stream_cache ++ joinChunks chunks ∧
      (streamRun sc chunks).1.stream_cache.length
          = (sc.stream_cache.length + (joinChunks chunks).length) % 4 ∧
      Contig sc.current_addr (streamRun sc chunks).2 ∧
      (streamRun sc chunks).1.current_addr
          = sc.current_addr + (wbytes (streamRun sc chunks).2).length := by
  induction chunks with
  | nil =>
    intro sc h3
    refine ⟨by simp [streamRun, wbytes, joinChunks], ?_,
      by simp [streamRun, Contig], by simp [streamRun, wbytes]⟩
    simp only [streamRun, joinChunks, List.length_nil]
    omega
  | cons d rest ih =>
    intro sc h3
    obtain ⟨w1, w2, w3, w4⟩ := bootloader_stream_write_spec sc d h3
    obtain ⟨i1, i2, i3, i4⟩ := ih (bootloader_stream_write sc d).1 (by omega)
    have hrun : streamRun sc (d :: rest)
        = ((streamRun (bootloader_stream_write sc d).1 rest).1,
           (bootloader_stream_write sc d).2 ++ (streamRun (bootloader_stream_write sc d).1 rest).2) :=
      rfl
    rw [hrun]
    refine ⟨?_, ?_, ?_, ?_⟩
    · simp only [wbytes_append, List.append_assoc]
      rw [i1, ← List.append_assoc, w1, List.append_assoc]
      simp [joinChunks]
    · simp only [joinChunks, List.length_append]
      omega
    · exact contig_append _ _ _ w3 (by rw [← w4]; exact i3)
    · simp only [wbytes_append, List.length_append]
      omega

/-- Word decomposition of a byte run whose length is a multiple of four:
one word every four bytes, each of length four, at aligned addresses when
the base is aligned. -/
theorem wordsOf_spec : ∀ m a (bytes : List Nat), bytes.length = 4 * m →
    (wordsOf a bytes).length = m ∧
      ∀ w ∈ wordsOf a bytes, w.2.length = 4 ∧ (a % 4 = 0 → w.1 % 4 = 0) := by
  intro m
  induction m with
  | zero =>
    intro a bytes h
    have : bytes = [] := List.eq_nil_of_length_eq_zero (by omega)
    subst this
    simp [wordsOf]
  | succ k ih =>
    intro a bytes h
    rcases bytes with _ | ⟨b, rest⟩
    · simp at h
    · have hlen : (rest.drop 3).length = 4 * k := by
        simp only [List.length_drop]
        simp only [List.length_cons] at h
        omega
      obtain ⟨ihl, ihw⟩ := ih (a + 4) (rest.drop 3) hlen
      rw [wordsOf]
      constructor
      · simp only [List.length_cons, ihl]
      · intro w hw
        rcases List.mem_cons.mp hw with rfl | hw'
        · refine ⟨?_, fun ha => by omega⟩
          simp only [List.length_take, List.length_cons]
          simp only [List.length_cons] at h
          omega
        · obtain ⟨hw4, hwa⟩ := ihw w hw'
          exact ⟨hw4, fun ha => hwa (by omega)⟩

/-- C2 counterexample: the claim states that after streaming chunks of
total length L and flushing, the padding region holds L mod 4 bytes.  For
the single chunk [1,2,3,4,5] (L = 5) the writer programs 8 bytes, so the
padding region after the first 5 bytes holds 3 bytes (all 0xFF), and
3 is not 5 mod 4 = 1. -/
theorem C2_padding_count_counterexample :
    (wbytes (streamSession [[1, 2, 3, 4, 5]]).2).length = 8
      ∧ (wbytes (streamSession [[1, 2, 3, 4, 5]]).2).drop 5 = [0xFF, 0xFF, 0xFF]
      ∧ ¬((wbytes (streamSession [[1, 2, 3, 4, 5]]).2).length - 5 = 5 % 4) := by decide

/-- C2 (amended): streaming any chunk sequence of total length L through
bootloader_stream_write and then bootloader_stream_flush from a fresh
cursor programs exactly ceil(L/4) 4-byte words at 4-byte-aligned
contiguous addresses; the concatenation of the written bytes truncated to
L equals the concatenation of the chunks; the remaining 4*ceil(L/4) - L
padding bytes (that is, 4 - L mod 4 of them when L mod 4 is nonzero) all
equal 0xFF; and the cursor advances by exactly 4*ceil(L/4). -/
theorem C2_stream_writer_session (chunks : List (List Nat)) :
    (wordsOf BOOT_APP_START_ADDR (wbytes (streamSession chunks).2)).length
        = ((joinChunks chunks).length + 3) / 4 ∧
    (∀ w ∈ wordsOf BOOT_APP_START_ADDR (wbytes (streamSession chunks).2),
        w.1 % 4 = 0 ∧ w.2.length = 4) ∧
    (wbytes (streamSession chunks).2).take (joinChunks chunks).length = joinChunks chunks ∧
    (wbytes (streamSession chunks).2).drop (joinChunks chunks).length
        = List.replicate (4 * (((joinChunks chunks).length + 3) / 4) - (joinChunks chunks).length)
            0xFF ∧
    Contig BOOT_APP_START_ADDR (streamSession chunks).2 ∧
    (streamSession chunks).1.current_addr
        = BOOT_APP_START_ADDR + 4 * (((joinChunks chunks).length + 3) / 4) := by
  obtain ⟨s1, s2, s3, s4⟩ :=
    streamRun_spec chunks ⟨BOOT_APP_START_ADDR, []⟩ (by simp)
  simp only [List.nil_append, List.length_nil, Nat.zero_add] at s1 s2
  obtain ⟨f1, f2, f3, f4⟩ :=
    bootloader_stream_flush_spec (streamRun ⟨BOOT_APP_START_ADDR, []⟩ chunks).1
      (by rw [s2]; omega)
  have hsess : streamSession chunks
      = ((bootloader_stream_flush (streamRun ⟨BOOT_APP_START_ADDR, []⟩ chunks).1).1,
         (streamRun ⟨BOOT_APP_START_ADDR, []⟩ chunks).2
           ++ (bootloader_stream_flush (streamRun ⟨BOOT_APP_START_ADDR, []⟩ chunks).1).2) := rfl
  have hlen1 : (wbytes (streamRun ⟨BOOT_APP_START_ADDR, []⟩ chunks).2).length
      + (streamRun ⟨BOOT_APP_START_ADDR, []⟩ chunks).1.stream_cache.length
      = (joinChunks chunks).length := by
    have := congrArg List.length s1
    simpa using this
  have hB : wbytes ((streamRun ⟨BOOT_APP_START_ADDR, []⟩ chunks).2
        ++ (bootloader_stream_flush (streamRun ⟨BOOT_APP_START_ADDR, []⟩ chunks).1).2)
      = joinChunks chunks
        ++ List.replicate ((4 - (joinChunks chunks).length % 4) % 4) 0xFF := by
    rw [wbytes_append, f1, s2, ← List.append_assoc, s1]
  have hBlen : (wbytes ((streamRun ⟨BOOT_APP_START_ADDR, []⟩ chunks).2
        ++ (bootloader_stream_flush (streamRun ⟨BOOT_APP_START_ADDR, []⟩ chunks).1).2)).length
      = 4 * (((joinChunks chunks).length + 3) / 4) := by
    rw [hB]
    simp only [List.length_append, List.length_replicate]
    omega
  obtain ⟨hw1, hw2⟩ := wordsOf_spec (((joinChunks chunks).length + 3) / 4) BOOT_APP_START_ADDR
    (wbytes ((streamRun ⟨BOOT_APP_START_ADDR, []⟩ chunks).2
      ++ (bootloader_stream_flush (streamRun ⟨BOOT_APP_START_ADDR, []⟩ chunks).1).2)) hBlen
  rw [hsess]
  refine ⟨hw1, ?_, ?_, ?_, ?_, ?_⟩
  · intro w hw
    obtain ⟨h4, ha⟩ := hw2 w hw
    exact ⟨ha (by decide), h4⟩
  · rw [hB]
    exact List.take_left _ _
  · rw [hB]
    rw [List.drop_left]
    congr 1
    omega
  · exact contig_append _ _ _ s3 (by rw [← s4]; exact f3)
  · rw [f4, s4, f1, s2]
    simp only [List.length_append, List.length_replicate]
    rw [s2] at hlen1
    omega

/-! ### C10: stream-writer invariant -/

/-- States of the stream-writer core reachable from context initialization
(cursor at the application start, empty carry) through successful
bootloader_stream_write and bootloader_stream_flush calls. -/
inductive StreamReachable : StreamCore → Prop
  | init : StreamReachable ⟨BOOT_APP_START_ADDR, []⟩
  | write (sc : StreamCore) (data : List Nat) :
      StreamReachable sc → StreamReachable (bootloader_stream_write sc data).1
  | flush (sc : StreamCore) :
      StreamReachable sc → StreamReachable (bootloader_stream_flush sc).1

/-- C10: after context initialization and after every successful
bootloader_stream_write or bootloader_stream_flush call, the cursor sits a
multiple of 4 past BOOT_APP_START_ADDR and the carry holds at most 3
bytes; consequently every flash write issued from such a state targets a
4-byte-aligned address with a length that is a multiple of 4. -/
theorem C10_stream_writer_invariant (sc : StreamCore) (h : StreamReachable sc) :
    (∃ m, sc.current_addr = BOOT_APP_START_ADDR + 4 * m) ∧
    (sc.current_addr - BOOT_APP_START_ADDR) % 4 = 0 ∧
    sc.stream_cache.length ≤ 3 ∧
    (∀ data, ∀ w ∈ (bootloader_stream_write sc data).2,
        w.1 % 4 = 0 ∧ w.2.length % 4 = 0) ∧
    (∀ w ∈ (bootloader_stream_flush sc).2, w.1 % 4 = 0 ∧ w.2.length % 4 = 0) := by
  have hstart : BOOT_APP_START_ADDR % 4 = 0 := by decide
  have key : (∃ m, sc.current_addr = BOOT_APP_START_ADDR + 4 * m) ∧
      sc.stream_cache.length ≤ 3 := by
    induction h with
    | init => exact ⟨⟨0, by simp⟩, by simp⟩
    | write sc0 data hsc ih =>
      obtain ⟨⟨m, hm⟩, h3⟩ := ih
      obtain ⟨w1, w2, w3, w4⟩ := bootloader_stream_write_spec sc0 data h3
      have hmod := contig_wbytes_mod _ _ w3
      refine ⟨⟨m + (wbytes (bootloader_stream_write sc0 data).2).length / 4, ?_⟩, ?_⟩
      · rw [w4, hm]
        omega
      · rw [w2]
        omega
    | flush sc0 hsc ih =>
      obtain ⟨⟨m, hm⟩, h3⟩ := ih
      obtain ⟨f1, f2, f3, f4⟩ := bootloader_stream_flush_spec sc0 h3
      have hmod := contig_wbytes_mod _ _ f3
      refine ⟨⟨m + (wbytes (bootloader_stream_flush sc0).2).length / 4, ?_⟩, ?_⟩
      · rw [f4, hm]
        omega
      · rw [f2]
        simp
  obtain ⟨⟨m, hm⟩, h3⟩ := key
  have halign : sc.current_addr % 4 = 0 := by omega
  refine ⟨⟨m, hm⟩, by omega, h3, ?_, ?_⟩
  · intro data w hw
    obtain ⟨w1, w2, w3, w4⟩ := bootloader_stream_write_spec sc data h3
    obtain ⟨ha, hl, _⟩ := contig_writes_aligned _ _ w3 halign w hw
    exact ⟨ha, hl⟩
  · intro w hw
    obtain ⟨f1, f2, f3, f4⟩ := bootloader_stream_flush_spec sc h3
    obtain ⟨ha, hl, _⟩ := contig_writes_aligned _ _ f3 halign w hw
    exact ⟨ha, hl⟩

/-- Witness for C10 at the freshly initialized stream core. -/
theorem C10_stream_writer_invariant_witness :
    (∃ m, (⟨BOOT_APP_START_ADDR, []⟩ : StreamCore).current_addr = BOOT_APP_START_ADDR + 4 * m) ∧
    ((⟨BOOT_APP_START_ADDR, []⟩ : StreamCore).current_addr - BOOT_APP_START_ADDR) % 4 = 0 ∧
    (⟨BOOT_APP_START_ADDR, []⟩ : StreamCore).stream_cache.length ≤ 3 ∧
    (∀ data, ∀ w ∈ (bootloader_stream_write ⟨BOOT_APP_START_ADDR, []⟩ data).2,
        w.1 % 4 = 0 ∧ w.2.length % 4 = 0) ∧
    (∀ w ∈ (bootloader_stream_flush ⟨BOOT_APP_START_ADDR, []⟩).2,
        w.1 % 4 = 0 ∧ w.2.length % 4 = 0) :=
  C10_stream_writer_invariant ⟨BOOT_APP_START_ADDR, []⟩ StreamReachable.init

/-! ### C1: power-on jump decision -/

/-- C1: at power-on initialization, boot_port_jump_to_app is invoked if
and only if the persisted boot_flag equals BOOT_FLAG_APP and
bootloader_check_app_valid passes; with flag BOOT_FLAG_BOOTLOADER, the
erased sentinel, any unrecognized value, or an invalid image the engine
stays resident.  Moreover, for an application region whose first 8 bytes
are all 0xFF (both words 0xFFFFFFFF), the checker returns invalid — on
the RISC-V variant for every configuration, and on the ARM Cortex-M
variant whenever the configured erased sentinel is the all-ones flash
pattern, in particular on both build configurations of this repository
(STM32F407 and CH32V307) — so no jump is ever attempted regardless of
the flag value. -/
theorem C1_power_on_jump_iff_valid_app_flag (arch : BootArch) (cfg : BootConfig)
    (boot_flag word0 word1 : Nat) :
    (easy_bootloader_should_jump arch cfg boot_flag word0 word1 = true ↔
      (boot_flag = BOOT_FLAG_APP ∧ bootloader_check_app_valid arch cfg word0 word1 = true)) ∧
    ((arch = BootArch.riscv ∨ cfg.flag_erased = stm32f407_boot_config.flag_erased) →
      bootloader_check_app_valid arch cfg 0xFFFFFFFF 0xFFFFFFFF = false ∧
      easy_bootloader_should_jump arch cfg boot_flag 0xFFFFFFFF 0xFFFFFFFF = false) ∧
    bootloader_check_app_valid BootArch.arm_cortex_m stm32f407_boot_config
        0xFFFFFFFF 0xFFFFFFFF = false ∧
    bootloader_check_app_valid BootArch.riscv ch32v307_boot_config
        0xFFFFFFFF 0xFFFFFFFF = false := by
  have hff : ∀ h : arch = BootArch.riscv ∨ cfg.flag_erased = stm32f407_boot_config.flag_erased,
      bootloader_check_app_valid arch cfg 0xFFFFFFFF 0xFFFFFFFF = false := by
    intro h
    cases arch with
    | riscv =>
      simp only [bootloader_check_app_valid]
      split_ifs <;> rfl
    | arm_cortex_m =>
      have herased : cfg.flag_erased = 0xFFFFFFFF := by
        rcases h with h | h
        · exact absurd h (by simp)
        · exact h
      simp only [bootloader_check_app_valid]
      split_ifs <;> first | rfl | simp_all
  refine ⟨?_, ?_, by decide, by decide⟩
  · simp only [easy_bootloader_should_jump]
    split_ifs with h1 h2 h3 h4
    · simp only [Bool.false_eq_true, false_iff]
      intro ⟨hf, _⟩
      rw [hf] at h1
      exact absurd h1 (by decide)
    · simp only [true_iff]
      exact ⟨h3, h2⟩
    · simp only [Bool.false_eq_true, false_iff]
      intro ⟨hf, _⟩
      exact h3 hf
    · simp only [Bool.false_eq_true, false_iff]
      intro ⟨hf, _⟩
      exact h3 hf
    · simp only [Bool.false_eq_true, false_iff]
      intro ⟨_, hv⟩
      exact h2 hv
  · intro h
    have hc := hff h
    refine ⟨hc, ?_⟩
    simp [easy_bootloader_should_jump, hc]

/-- Witness for C1 on the CH32V307 (RISC-V) configuration with flag APP
and an erased application region. -/
theorem C1_power_on_jump_witness :
    (easy_bootloader_should_jump BootArch.riscv ch32v307_boot_config BOOT_FLAG_APP
        0xFFFFFFFF 0xFFFFFFFF = true ↔
      (BOOT_FLAG_APP = BOOT_FLAG_APP ∧
        bootloader_check_app_valid BootArch.riscv ch32v307_boot_config
          0xFFFFFFFF 0xFFFFFFFF = true)) ∧
    bootloader_check_app_valid BootArch.riscv ch32v307_boot_config
        0xFFFFFFFF 0xFFFFFFFF = false ∧
    easy_bootloader_should_jump BootArch.riscv ch32v307_boot_config BOOT_FLAG_APP
        0xFFFFFFFF 0xFFFFFFFF = false := by
  obtain ⟨h1, h2, h3, h4⟩ := C1_power_on_jump_iff_valid_app_flag BootArch.riscv
    ch32v307_boot_config BOOT_FLAG_APP 0xFFFFFFFF 0xFFFFFFFF
  exact ⟨h1, h2 (Or.inl rfl)⟩

/-! ### C4: finish frame outside WaitFinish -/

theorem bootRunLoop_none (fuel : Nat) (ctx : BootCtx) (evs : List BootEvent)
    (h : (bootloader_try_extract_frame ctx.rx_cache).1 = none) :
    bootRunLoop (fuel + 1) ctx evs
      = ({ ctx with rx_cache := (bootloader_try_extract_frame ctx.rx_cache).2 }, evs) := by
  simp only [bootRunLoop]
  rw [h]

/-- C4 counterexample: a well-formed FinishFrame
(55 AA 00 00 00 06 20 24 01 01 FF FD 55 55, version 6, date 0x20240101)
sits in the cache while the engine is in Receiving with the cursor 8 bytes
into the application region and an active download.  The claim says the
frame is rejected and the whole context reinitialized.  Running
easy_bootloader_run instead leaves state, cursor and download flag intact
(only resynchronization bytes are consumed from the cache) and emits no
event: the context is not the reinitialized context. -/
theorem C4_finish_frame_counterexample :
    (easy_bootloader_run
      { rx_cache := [0x55, 0xAA, 0, 0, 0, 6, 0x20, 0x24, 1, 1, 0xFF, 0xFD, 0x55, 0x55],
        current_addr := BOOT_APP_START_ADDR + 8, stream_cache := [],
        boot_flag := 0, app_version := 0, update_date := 0,
        state := BootState.receiving, download_active := true, initialized := true } []).1.state
        = BootState.receiving ∧
    (easy_bootloader_run
      { rx_cache := [0x55, 0xAA, 0, 0, 0, 6, 0x20, 0x24, 1, 1, 0xFF, 0xFD, 0x55, 0x55],
        current_addr := BOOT_APP_START_ADDR + 8, stream_cache := [],
        boot_flag := 0, app_version := 0, update_date := 0,
        state := BootState.receiving, download_active := true, initialized := true } []).1.current_addr
        = BOOT_APP_START_ADDR + 8 ∧
    (easy_bootloader_run
      { rx_cache := [0x55, 0xAA, 0, 0, 0, 6, 0x20, 0x24, 1, 1, 0xFF, 0xFD, 0x55, 0x55],
        current_addr := BOOT_APP_START_ADDR + 8, stream_cache := [],
        boot_flag := 0, app_version := 0, update_date := 0,
        state := BootState.receiving, download_active := true, initialized := true } []).1.download_active
        = true ∧
    (easy_bootloader_run
      { rx_cache := [0x55, 0xAA, 0, 0, 0, 6, 0x20, 0x24, 1, 1, 0xFF, 0xFD, 0x55, 0x55],
        current_addr := BOOT_APP_START_ADDR + 8, stream_cache := [],
        boot_flag := 0, app_version := 0, update_date := 0,
        state := BootState.receiving, download_active := true, initialized := true } []).2 = [] ∧
    (easy_bootloader_run
      { rx_cache := [0x55, 0xAA, 0, 0, 0, 6, 0x20, 0x24, 1, 1, 0xFF, 0xFD, 0x55, 0x55],
        current_addr := BOOT_APP_START_ADDR + 8, stream_cache := [],
        boot_flag := 0, app_version := 0, update_date := 0,
        state := BootState.receiving, download_active := true, initialized := true } []).1
      ≠ bootloader_reset_context
        { rx_cache := [0x55, 0xAA, 0, 0, 0, 6, 0x20, 0x24, 1, 1, 0xFF, 0xFD, 0x55, 0x55],
          current_addr := BOOT_APP_START_ADDR + 8, stream_cache := [],
          boot_flag := 0, app_version := 0, update_date := 0,
          state := BootState.receiving, download_active := true, initialized := true } := by
  decide

theorem finish_frame_extract_none (v0 v1 v2 v3 d0 d1 d2 d3 : Nat)
    (hv0 : v0 < 256) (hv1 : v1 < 256) (hv2 : v2 < 256) (hv3 : v3 < 256)
    (hd0 : d0 < 256) (hd1 : d1 < 256) (hd2 : d2 < 256) (hd3 : d3 < 256) :
    (bootloader_try_extract_frame
      [0x55, 0xAA, v0, v1, v2, v3, d0, d1, d2, d3, 0xFF, 0xFD, 0x55, 0x55]).1 = none := by
  have hpm : BOOT_PAYLOAD_MAX_SIZE = 1013 := rfl
  by_cases hA : 4 ≤ v3 * 256 + d0 ∧ v3 * 256 + d0 ≤ 1013
  · rw [extract_incomplete v0 v1 v2 v3 d0 [d1, d2, d3, 0xFF, 0xFD, 0x55, 0x55]
      (by simp) (by omega) (by simp only [List.length_cons, List.length_nil]; omega)]
  · have hstep1 : bootloader_try_extract_frame
        [0x55, 0xAA, v0, v1, v2, v3, d0, d1, d2, d3, 0xFF, 0xFD, 0x55, 0x55]
        = bootloader_try_extract_frame [v0, v1, v2, v3, d0, d1, d2, d3, 0xFF, 0xFD, 0x55, 0x55] := by
      apply extract_skip_two v0 v1 v2 v3 d0 [d1, d2, d3, 0xFF, 0xFD, 0x55, 0x55] (by simp)
      by_cases hgt : 1013 < v3 * 256 + d0
      · exact Or.inl (by omega)
      · refine Or.inr ⟨by simp only [List.length_cons, List.length_nil]; omega, ?_⟩
        have hv3z : v3 = 0 := by omega
        subst hv3z
        have hd03 : d0 ≤ 3 := by omega
        simp only [Nat.zero_mul, Nat.zero_add]
        interval_cases d0
        · simp [List.getD]
        · simp [List.getD]
        · simp [List.getD]
        · intro hcon
          obtain ⟨hcs, _, _⟩ := hcon
          simp [List.getD] at hcs
          omega
    rw [hstep1]
    by_cases hv01 : v0 = 0x55 ∧ v1 = 0xAA
    · obtain ⟨h01a, h01b⟩ := hv01
      subst h01a
      subst h01b
      by_cases hB : 2 ≤ d1 * 256 + d2 ∧ d1 * 256 + d2 ≤ 1013
      · rw [extract_incomplete v2 v3 d0 d1 d2 [d3, 0xFF, 0xFD, 0x55, 0x55]
          (by simp) (by omega) (by simp only [List.length_cons, List.length_nil]; omega)]
      · have hstep2 : bootloader_try_extract_frame
            [0x55, 0xAA, v2, v3, d0, d1, d2, d3, 0xFF, 0xFD, 0x55, 0x55]
            = bootloader_try_extract_frame [v2, v3, d0, d1, d2, d3, 0xFF, 0xFD, 0x55, 0x55] := by
          apply extract_skip_two v2 v3 d0 d1 d2 [d3, 0xFF, 0xFD, 0x55, 0x55] (by simp)
          by_cases hgt2 : 1013 < d1 * 256 + d2
          · exact Or.inl (by omega)
          · refine Or.inr ⟨by simp only [List.length_cons, List.length_nil]; omega, ?_⟩
            have hd1z : d1 = 0 := by omega
            subst hd1z
            have hd21 : d2 ≤ 1 := by omega
            simp only [Nat.zero_mul, Nat.zero_add]
            interval_cases d2
            · simp [List.getD]
            · intro hcon
              obtain ⟨hcs, _, _⟩ := hcon
              simp [List.getD] at hcs
              omega
        rw [hstep2]
        rw [extract_too_short _ (by simp)]
    · rw [extract_skip_header v0 v1 v2 v3 d0 d1 d2 [d3, 0xFF, 0xFD, 0x55, 0x55] (by simp) hv01]
      by_cases hv12 : v1 = 0x55 ∧ v2 = 0xAA
      · obtain ⟨h12a, h12b⟩ := hv12
        subst h12a
        subst h12b
        by_cases hC : 1 ≤ d2 * 256 + d3 ∧ d2 * 256 + d3 ≤ 1013
        · rw [extract_incomplete v3 d0 d1 d2 d3 [0xFF, 0xFD, 0x55, 0x55]
            (by simp) (by omega) (by simp only [List.length_cons, List.length_nil]; omega)]
        · have hstep3 : bootloader_try_extract_frame
              [0x55, 0xAA, v3, d0, d1, d2, d3, 0xFF, 0xFD, 0x55, 0x55]
              = bootloader_try_extract_frame [v3, d0, d1, d2, d3, 0xFF, 0xFD, 0x55, 0x55] := by
            apply extract_skip_two v3 d0 d1 d2 d3 [0xFF, 0xFD, 0x55, 0x55] (by simp)
            by_cases hgt3 : 1013 < d2 * 256 + d3
            · exact Or.inl (by omega)
            · refine Or.inr ⟨by simp only [List.length_cons, List.length_nil]; omega, ?_⟩
              have hd2z : d2 = 0 := by omega
              have hd3z : d3 = 0 := by omega
              subst hd2z
              subst hd3z
              decide
          rw [hstep3]
          rw [extract_too_short _ (by simp)]
      · rw [extract_skip_header v1 v2 v3 d0 d1 d2 d3 [0xFF, 0xFD, 0x55, 0x55] (by simp) hv12]
        rw [extract_too_short _ (by simp)]

/-- C4 (amended): a well-formed 14-byte FinishFrame arriving while the
state machine is in Idle or Receiving is never recognized as a finish
frame — easy_bootloader_run only runs the finish-frame extractor in
WaitFinish.  For every version and date (each of the eight version/date
bytes an arbitrary byte below 256) and every non-WaitFinish state, the
frame's bytes are handed to the data-frame codec, which never accepts
them: the run leaves state, cursor, carry buffer, flag snapshot and
download flag unchanged, emits no flash write, acknowledgement or reset,
and only the receive cache changes — to exactly the codec's leftover
(at most advanced by resynchronization, possibly still pending as an
incomplete data-frame candidate).  The context is never reinitialized. -/
theorem C4_finish_frame_outside_waitfinish (s : BootState) (hs : ¬ s = BootState.waitFinish)
    (v0 v1 v2 v3 d0 d1 d2 d3 a bf av ud : Nat) (carry : List Nat) (da : Bool)
    (hv0 : v0 < 256) (hv1 : v1 < 256) (hv2 : v2 < 256) (hv3 : v3 < 256)
    (hd0 : d0 < 256) (hd1 : d1 < 256) (hd2 : d2 < 256) (hd3 : d3 < 256) :
    easy_bootloader_run
      { rx_cache := [0x55, 0xAA, v0, v1, v2, v3, d0, d1, d2, d3, 0xFF, 0xFD, 0x55, 0x55],
        current_addr := a, stream_cache := carry, boot_flag := bf, app_version := av,
        update_date := ud, state := s, download_active := da, initialized := true } []
      = ({ rx_cache := (bootloader_try_extract_frame
             [0x55, 0xAA, v0, v1, v2, v3, d0, d1, d2, d3, 0xFF, 0xFD, 0x55, 0x55]).2,
           current_addr := a, stream_cache := carry, boot_flag := bf, app_version := av,
           update_date := ud, state := s, download_active := da, initialized := true }, []) := by
  have hext := finish_frame_extract_none v0 v1 v2 v3 d0 d1 d2 d3
    hv0 hv1 hv2 hv3 hd0 hd1 hd2 hd3
  have hpoll : bootloader_poll_uart
      { rx_cache := [0x55, 0xAA, v0, v1, v2, v3, d0, d1, d2, d3, 0xFF, 0xFD, 0x55, 0x55],
        current_addr := a, stream_cache := carry, boot_flag := bf, app_version := av,
        update_date := ud, state := s, download_active := da, initialized := true } []
      = { rx_cache := [0x55, 0xAA, v0, v1, v2, v3, d0, d1, d2, d3, 0xFF, 0xFD, 0x55, 0x55],
          current_addr := a, stream_cache := carry, boot_flag := bf, app_version := av,
          update_date := ud, state := s, download_active := da, initialized := true } := by
    simp [bootloader_poll_uart, BOOT_PACKET_MAX_SIZE]
  unfold easy_bootloader_run
  rw [hpoll]
  simp only [if_neg hs]
  rw [bootRunLoop_none _ _ _ hext]
  simp

/-- Witness for C4 at state Receiving with version 1 and date 0x20240101:
the declared pseudo-length 1*256+0x20 = 288 is plausible, so the codec
reports an incomplete candidate and the cache is left pending verbatim,
with the context otherwise untouched and no event emitted. -/
theorem C4_finish_frame_witness :
    easy_bootloader_run
      { rx_cache := [0x55, 0xAA, 0, 0, 0, 1, 0x20, 0x24, 1, 1, 0xFF, 0xFD, 0x55, 0x55],
        current_addr := BOOT_APP_START_ADDR + 8, stream_cache := [], boot_flag := 0,
        app_version := 0, update_date := 0, state := BootState.receiving,
        download_active := true, initialized := true } []
      = ({ rx_cache := (bootloader_try_extract_frame
             [0x55, 0xAA, 0, 0, 0, 1, 0x20, 0x24, 1, 1, 0xFF, 0xFD, 0x55, 0x55]).2,
           current_addr := BOOT_APP_START_ADDR + 8, stream_cache := [], boot_flag := 0,
           app_version := 0, update_date := 0, state := BootState.receiving,
           download_active := true, initialized := true }, []) :=
  C4_finish_frame_outside_waitfinish BootState.receiving (by decide)
    0 0 0 1 0x20 0x24 1 1 (BOOT_APP_START_ADDR + 8) 0 0 0 [] true
    (by decide) (by decide) (by decide) (by decide)
    (by decide) (by decide) (by decide) (by decide)

/-! ### C5: two-frame streaming scenario -/

/-- C5 counterexample: the claim says exactly one Ack is sent, after the
first DataFrame, and none after the second.  Processing
DataFrame{remaining=5, payload=[0xAA;5]} then
DataFrame{remaining=0, payload=[0xBB;3]} from a fresh context, the second
bootloader_handle_payload call also emits an Ack (the stm32f4 handler
sends an Ack on every successfully handled frame, last or not), so two
Acks are sent in total. -/
theorem C5_second_frame_ack_counterexample :
    (bootloader_handle_payload
      (bootloader_handle_payload
        { rx_cache := [], current_addr := BOOT_APP_START_ADDR, stream_cache := [],
          boot_flag := 0, app_version := 0, update_date := 0,
          state := BootState.idle, download_active := false, initialized := true }
        5 [0xAA, 0xAA, 0xAA, 0xAA, 0xAA]).2.1
      0 [0xBB, 0xBB, 0xBB]).2.2.count BootEvent.ack = 1 ∧
    (bootloader_handle_payload
        { rx_cache := [], current_addr := BOOT_APP_START_ADDR, stream_cache := [],
          boot_flag := 0, app_version := 0, update_date := 0,
          state := BootState.idle, download_active := false, initialized := true }
        5 [0xAA, 0xAA, 0xAA, 0xAA, 0xAA]).2.2.count BootEvent.ack = 1 := by decide

/-- C5 (amended): processing DataFrame{remaining=5, payload=[0xAA;5]} then
DataFrame{remaining=0, payload=[0xBB;3]} from a fresh cursor erases the
application region once, performs exactly two 4-byte word writes —
AA AA AA AA then AA BB BB BB at consecutive aligned addresses — advances
the cursor by exactly 8 bytes, and sends one Ack after each of the two
DataFrames (two Acks in total, no reset); after the second frame the
engine is in WaitFinish with the download flag cleared. -/
theorem C5_two_frame_scenario :
    (bootloader_handle_payload
      { rx_cache := [], current_addr := BOOT_APP_START_ADDR, stream_cache := [],
        boot_flag := 0, app_version := 0, update_date := 0,
        state := BootState.idle, download_active := false, initialized := true }
      5 [0xAA, 0xAA, 0xAA, 0xAA, 0xAA]) =
    (true,
     { rx_cache := [], current_addr := BOOT_APP_START_ADDR + 4, stream_cache := [0xAA],
       boot_flag := 0, app_version := 0, update_date := 0,
       state := BootState.receiving, download_active := true, initialized := true },
     [BootEvent.flash (FlashOp.erase BOOT_APP_START_ADDR BOOT_APP_MAX_SIZE),
      BootEvent.flash (FlashOp.write BOOT_APP_START_ADDR [0xAA, 0xAA, 0xAA, 0xAA]),
      BootEvent.ack]) ∧
    (bootloader_handle_payload
      { rx_cache := [], current_addr := BOOT_APP_START_ADDR + 4, stream_cache := [0xAA],
        boot_flag := 0, app_version := 0, update_date := 0,
        state := BootState.receiving, download_active := true, initialized := true }
      0 [0xBB, 0xBB, 0xBB]) =
    (true,
     { rx_cache := [], current_addr := BOOT_APP_START_ADDR + 8, stream_cache := [],
       boot_flag := 0, app_version := 0, update_date := 0,
       state := BootState.waitFinish, download_active := false, initialized := true },
     [BootEvent.flash (FlashOp.write (BOOT_APP_START_ADDR + 4) [0xAA, 0xBB, 0xBB, 0xBB]),
      BootEvent.ack]) := by decide

/-! ### C8: flag region update sequences -/

/-- C8 evaluation at the failing input: for any flag/version/date, the
bootloader-side update is one region erase followed by exactly three word
writes in the order flag, version, date — as claimed — but the
application-side app_write_flag_region issues FOUR word writes: its C
source contains a duplicated trailing block that programs the date word
at +0x08 a second time.  Shown here at flag=1 (BOOTLOADER), version=6,
date=0x20240101 with every flash operation succeeding. -/
theorem C8_flag_region_write_sequences :
    bootloader_write_flag_region (fun _ => true) 2 6 0x20240101
      = (true,
         [FlashOp.erase BOOT_FLAG_REGION_ADDR BOOT_FLAG_REGION_SIZE,
          FlashOp.write BOOT_FLAG_ADDR [2, 0, 0, 0],
          FlashOp.write BOOT_VERSION_ADDR [6, 0, 0, 0],
          FlashOp.write BOOT_DATE_ADDR [1, 1, 0x24, 0x20]]) ∧
    app_write_flag_region (fun _ => true) 1 6 0x20240101
      = (true,
         [FlashOp.erase BOOT_FLAG_REGION_ADDR BOOT_FLAG_REGION_SIZE,
          FlashOp.write BOOT_FLAG_ADDR [1, 0, 0, 0],
          FlashOp.write BOOT_VERSION_ADDR [6, 0, 0, 0],
          FlashOp.write BOOT_DATE_ADDR [1, 1, 0x24, 0x20],
          FlashOp.write BOOT_DATE_ADDR [1, 1, 0x24, 0x20]]) ∧
    ((app_write_flag_region (fun _ => true) 1 6 0x20240101).2.countP
        (fun op => match op with | FlashOp.write _ _ => true | _ => false)) = 4 := by
  decide

/-! ### C9: application StartFlash dispatch -/

/-- C9: for every StartFlash command received by the application command
engine: if the frame's version equals the cached one, the handler is a
complete no-op (no erase, no write, no reset, no output at all); if the
versions differ, the Ack is emitted first, followed exactly by the flash
operations of app_write_flag_region with flag=BOOTLOADER and the frame's
version and date; the system reset is emitted last and only when that
flag-region write reported success — on a failed write the handler
returns without resetting. -/
theorem C9_start_flash_dispatch (oracle : Nat → Bool) (cached ver date : Nat) :
    (ver = cached → app_handle_start_flash oracle cached ver date = []) ∧
    (ver ≠ cached → app_handle_start_flash oracle cached ver date
        = BootEvent.ack ::
            ((app_write_flag_region oracle BOOT_FLAG_BOOTLOADER ver date).2.map BootEvent.flash
              ++ (if (app_write_flag_region oracle BOOT_FLAG_BOOTLOADER ver date).1 then
                    [BootEvent.reset] else []))) ∧
    (ver ≠ cached → (app_write_flag_region oracle BOOT_FLAG_BOOTLOADER ver date).1 = false →
        BootEvent.reset ∉ app_handle_start_flash oracle cached ver date) ∧
    (ver ≠ cached → (app_write_flag_region oracle BOOT_FLAG_BOOTLOADER ver date).1 = true →
        (app_handle_start_flash oracle cached ver date).getLast? = some BootEvent.reset) := by
  refine ⟨?_, ?_, ?_, ?_⟩
  · intro h
    simp [app_handle_start_flash, h]
  · intro h
    simp [app_handle_start_flash, h]
  · intro h hw
    simp only [app_handle_start_flash, if_neg h, hw, Bool.false_eq_true, if_false,
      List.append_nil, List.mem_cons, List.mem_map]
    rintro (habs | ⟨op, _, habs⟩) <;> simp at habs
  · intro h hw
    simp only [app_handle_start_flash, if_neg h, hw, if_true]
    rw [show BootEvent.ack ::
          ((app_write_flag_region oracle BOOT_FLAG_BOOTLOADER ver date).2.map BootEvent.flash
            ++ [BootEvent.reset])
        = (BootEvent.ack ::
            (app_write_flag_region oracle BOOT_FLAG_BOOTLOADER ver date).2.map BootEvent.flash)
          ++ [BootEvent.reset] from by simp]
    exact List.getLast?_concat _

/-- Witness for C9 with an all-succeeding port, cached version 5,
requested version 6, date 0x20240101. -/
theorem C9_start_flash_witness :
    (app_handle_start_flash (fun _ => true) 5 6 0x20240101).getLast? = some BootEvent.reset :=
  (C9_start_flash_dispatch (fun _ => true) 5 6 0x20240101).2.2.2 (by decide) (by decide)
